import Mathlib

/-!
Shallow embedding of `src/scrape.py` (`FirehoseScraper`), the Bluesky firehose
post scraper, together with proofs settling the frozen claims about it.

Modelling conventions:
* Decoded CBOR records (the values of `CAR.from_bytes(...).blocks`) are
  dynamically typed; they are modelled by the `Json` inductive below.
* Python `dict.get` is modelled by association-list lookup (`lookupField`);
  Python dictionaries have unique keys and preserve insertion order, which an
  association list reproduces.
* Python attribute errors raised by calling `.get` on a non-dict value, and
  index errors raised by out-of-range list subscripts, are modelled by the
  `Except PyErr` monad; a `try/except` block in the source becomes a `match`
  on the `Except` value that maps every `error` to the handler's result.
* The external identity-resolution backend (`self.resolver.did.resolve`) is a
  parameter `resolver : String → Except Unit (List String)`: `.error ()`
  models the call raising, `.ok aka` models a resolved identity whose
  `also_known_as` list is `aka`.
* `time.sleep`, `print` and file writes are effects invisible to the data
  flow; the definitions record the data they would be given (sleep durations,
  saved records) instead of performing them.
-/

namespace BskyScraper

/-- Dynamically typed values, the shape of decoded CBOR records flowing out of
`CAR.from_bytes(commit.blocks).blocks.values()` in `scrape.py`. -/
inductive Json where
  | null
  | bool (b : Bool)
  | num (n : Int)
  | str (s : String)
  | arr (elems : List Json)
  | obj (fields : List (String × Json))
deriving Repr

/-- Python runtime errors that the modelled fragment of `scrape.py` can raise:
`attributeError` for `.get` on a non-dict, `indexError` for an out-of-range
subscript, `resolverError` for an exception coming out of the external
resolution backend. -/
inductive PyErr where
  | attributeError
  | indexError
  | resolverError
deriving Repr, DecidableEq

/-- Association-list lookup, the model of Python `dict[...]` access on the
decoded records (first binding of the key wins; Python dict keys are unique). -/
def lookupField : List (String × Json) → String → Option Json
  | [], _ => none
  | (k', v) :: rest, k => if k' = k then some v else lookupField rest k

/-- Model of Python `key in dict`. -/
def hasKey (fields : List (String × Json)) (k : String) : Bool :=
  (lookupField fields k).isSome

/-- Model of Python `value == "literal"` where `value` is `dict.get(key)`:
true exactly when the value is present and is that string. -/
def pyEqStr (o : Option Json) (s : String) : Bool :=
  match o with
  | some (.str t) => t = s
  | _ => false

/-- Model of Python `s.startswith(pre)`. -/
def pyStartsWith (s pre : String) : Bool :=
  pre.data.isPrefixOf s.data

/-- Fuel-driven worker for `pySplit`; the fuel starts at the length of the
subject string, which one character of progress per step never exhausts. -/
def splitAux (sep : List Char) : Nat → List Char → List Char → List (List Char)
  | 0, rest, acc => [acc.reverse ++ rest]
  | _, [], acc => [acc.reverse]
  | fuel + 1, c :: rest, acc =>
    if sep.isPrefixOf (c :: rest) then
      acc.reverse :: splitAux sep fuel (List.drop (sep.length - 1) rest) []
    else splitAux sep fuel rest (c :: acc)

/-- Model of Python `s.split(sep)` for a non-empty separator: the maximal
segments of `s` between non-overlapping occurrences of `sep`. -/
def pySplit (s sep : String) : List String :=
  (splitAux sep.data s.data.length s.data []).map (fun cs => String.mk cs)

/-- Model of Python `xs[i]` on a list for a non-negative index: the element, or
an `IndexError` when the list is too short. -/
def pyGetIdx {α : Type} (xs : List α) (i : Nat) : Except PyErr α :=
  match xs.drop i with
  | x :: _ => .ok x
  | [] => .error .indexError

/-- The dictionary built by `_extract_post_data`, one output unit of the
scraper. `text` and `created_at` hold whatever dynamic value the record
carries (default: the empty string); `reply_to` is `none` when
`record.get('reply', {}).get('parent', {}).get('uri')` is `None`. -/
structure PostRecord where
  text : Json
  created_at : Json
  author : String
  uri : String
  has_images : Bool
  reply_to : Option Json
deriving Repr

/-- Model of `FirehoseScraper._check_for_images`: reads
`record.get('embed', {})` and tests the `$type` discriminant; evaluating
`embed.get(...)` on a non-dict embed value raises `AttributeError`. -/
def check_for_images (record : List (String × Json)) : Except PyErr Bool :=
  match (lookupField record "embed").getD (.obj []) with
  | .obj ef =>
    .ok (pyEqStr (lookupField ef "$type") "app.bsky.embed.images" ||
      (pyEqStr (lookupField ef "$type") "app.bsky.embed.external" && hasKey ef "thumb"))
  | _ => .error .attributeError

/-- Model of `FirehoseScraper._get_reply_to`:
`record.get('reply', {}).get('parent', {}).get('uri')`, raising
`AttributeError` when an intermediate value is not a dict. -/
def get_reply_to (record : List (String × Json)) : Except PyErr (Option Json) :=
  match (lookupField record "reply").getD (.obj []) with
  | .obj rf =>
    match (lookupField rf "parent").getD (.obj []) with
    | .obj pf => .ok (lookupField pf "uri")
    | _ => .error .attributeError
  | _ => .error .attributeError

/-- Model of `FirehoseScraper._extract_post_data`: computes `has_images`, then
`reply_to`, then assembles the output dictionary, propagating any error. -/
def extract_post_data (record : List (String × Json)) (repo path author_handle : String) :
    Except PyErr PostRecord := do
  let hi ← check_for_images record
  let rt ← get_reply_to record
  .ok ⟨(lookupField record "text").getD (.str ""),
    (lookupField record "createdAt").getD (.str ""),
    author_handle,
    "at://" ++ repo ++ "/" ++ path,
    hi, rt⟩

/-- The record filter inside `_process_post`'s loop:
`isinstance(record, dict) and record.get('$type') == 'app.bsky.feed.post'`,
returning the record's fields when it passes. -/
def isPostRecord (j : Json) : Option (List (String × Json)) :=
  match j with
  | .obj fields =>
    if pyEqStr (lookupField fields "$type") "app.bsky.feed.post" then some fields else none
  | _ => none

/-- The post-typed records of a decoded block bundle, in bundle order. -/
def postFields (blocks : List Json) : List (List (String × Json)) :=
  blocks.filterMap isPostRecord

/-- The body of `_process_post`'s `for record in car.blocks.values()` loop,
run without its surrounding `try`: returns the list of records saved by
`_save_post_data` so far, paired with the exception that escaped the loop, if
any. An exception aborts the loop at the failing record. -/
def processPostGo (author repo path : String) :
    List Json → List PostRecord → List PostRecord × Option PyErr
  | [], acc => (acc.reverse, none)
  | r :: rest, acc =>
    match isPostRecord r with
    | some fields =>
      match extract_post_data fields repo path author with
      | .ok p => processPostGo author repo path rest (p :: acc)
      | .error e => (acc.reverse, some e)
    | none => processPostGo author repo path rest acc

/-- Model of `FirehoseScraper._process_post` for one operation, with the
block bundle already decoded and the author handle already resolved: the
`try/except` prints and swallows any exception, so only the records saved
before the failure remain. -/
def process_post (author repo path : String) (blocks : List Json) : List PostRecord :=
  (processPostGo author repo path blocks []).1

/-- The body of `FirehoseScraper._resolve_author_handle`'s `try` block:
`resolved_info.also_known_as[0].split('at://')[1] if resolved_info.also_known_as else repo`,
with the backend call's own failure propagated as an exception. -/
def resolve_author_handle_run (resolved : Except Unit (List String)) (repo : String) :
    Except PyErr String :=
  match resolved with
  | .error _ => .error .resolverError
  | .ok [] => .ok repo
  | .ok (a0 :: _) => pyGetIdx (pySplit a0 "at://") 1

/-- Model of `FirehoseScraper._resolve_author_handle`: any exception from the
body is caught and the raw `repo` identifier returned instead. -/
def resolve_author_handle (resolved : Except Unit (List String)) (repo : String) : String :=
  match resolve_author_handle_run resolved repo with
  | .ok h => h
  | .error _ => repo

/-- One operation of a commit event (`op.action`, `op.path`). -/
structure Operation where
  action : String
  path : String
deriving Repr, DecidableEq

/-- One commit event as `process_message` sees it, with `blocks` carrying the
already-decoded block bundle in bundle order. -/
structure Commit where
  repo : String
  ops : List Operation
  blocks : List Json
deriving Repr

/-- The operation filter in `process_message`:
`op.action == 'create' and op.path.startswith('app.bsky.feed.post/')`. -/
def matchingOp (op : Operation) : Bool :=
  op.action == "create" && pyStartsWith op.path "app.bsky.feed.post/"

/-- The operations of a commit that `process_message` forwards to
`_process_post`, in arrival order. -/
def matchingOps (c : Commit) : List Operation :=
  c.ops.filter matchingOp

/-- Model of `FirehoseScraper.process_message` on a commit event: every
matching operation is handed to `_process_post`, which resolves the author
handle for `commit.repo` through `resolver` and scans the whole decoded
bundle; the returned list is every record saved while processing the message,
in save order. -/
def process_message (resolver : String → Except Unit (List String)) (c : Commit) :
    List PostRecord :=
  (matchingOps c).flatMap fun op =>
    process_post (resolve_author_handle (resolver c.repo) c.repo) c.repo op.path c.blocks

/-- Value of an `Except` computation with a default for the error case. -/
def exceptD {ε α : Type} (x : Except ε α) (d : α) : α :=
  match x with
  | .ok a => a
  | .error _ => d

/-- Whether an `Except` computation succeeded. -/
def exOk {ε α : Type} (x : Except ε α) : Bool :=
  match x with
  | .ok _ => true
  | .error _ => false

/-- Whether `_extract_post_data` succeeds on a record's fields: both the
embed inspection and the reply inspection run without an exception. -/
def recordOk (fields : List (String × Json)) : Bool :=
  exOk (check_for_images fields) && exOk (get_reply_to fields)

/-- The `PostRecord` that `_extract_post_data` produces on a record whose
extraction succeeds (total companion of `extract_post_data`, with dummy
defaults in the error cases). -/
def mkPost (fields : List (String × Json)) (repo path author : String) : PostRecord :=
  ⟨(lookupField fields "text").getD (.str ""),
    (lookupField fields "createdAt").getD (.str ""),
    author,
    "at://" ++ repo ++ "/" ++ path,
    exceptD (check_for_images fields) false,
    exceptD (get_reply_to fields) none⟩

/-- The JSON object that `_save_post_data` serialises with `json.dump`: the
six fields of the extracted dictionary, in insertion order; a `None` value for
`reply_to` serialises as JSON `null`. The dump/parse round-trip of the
external `json` library is modelled as the identity on `Json` values. -/
def post_to_json (p : PostRecord) : Json :=
  .obj [("text", p.text), ("created_at", p.created_at), ("author", .str p.author),
    ("uri", .str p.uri), ("has_images", .bool p.has_images),
    ("reply_to", p.reply_to.getD .null)]

/-- The key list of a JSON object (empty for non-objects). -/
def jsonKeys : Json → List String
  | .obj fs => fs.map Prod.fst
  | _ => []

/-- Field access on a parsed JSON object. -/
def jLookup (j : Json) (k : String) : Option Json :=
  match j with
  | .obj fs => lookupField fs k
  | _ => none

/-- Model of the `message_handler` loop of `start_collection` for a session
configured with a post limit only (`duration_seconds=None`): the stream is
abstracted by the number of posts each incoming message saves, and the
handler's count check (`post_limit and self.post_count >= post_limit`, with
Python truthiness making `post_limit = 0` never trigger) runs before the
message is processed. The result is the final `post_count` together with
whether `_stop_collection` ran (the transition out of streaming). -/
def message_stream_run (post_limit : Nat) : List Nat → Nat → Nat × Bool
  | [], count => (count, false)
  | m :: ms, count =>
    if post_limit ≠ 0 ∧ post_limit ≤ count then (count, true)
    else message_stream_run post_limit ms (count + m)

/-- Observable outcome of the retry loop in `start_collection`: how many
connection attempts `self.client.start` received, which sleeps
(`time.sleep(retry_delay)`) ran between attempts in order, and whether the
loop ended on the fatal branch that reports the error and calls
`_stop_collection` (which prints the session summary). -/
structure RetryResult where
  attempts : Nat
  sleeps : List Nat
  fatalStop : Bool
deriving Repr, DecidableEq

/-- The `while retry_count < max_retries` loop of `start_collection`, with
`fails n` telling whether the `n`-th attempt (0-based) of
`self.client.start` raises. The fuel argument only bounds the iteration count;
`retry_count` grows by one per iteration, so fuel `max_retries` is never
exhausted from a start at `retry_count = 0`. -/
def retry_loop (fails : Nat → Bool) (max_retries : Nat) :
    Nat → Nat → Nat → Nat → List Nat → RetryResult
  | 0, _, _, attempts, sleeps => ⟨attempts, sleeps.reverse, false⟩
  | fuel + 1, retry_count, retry_delay, attempts, sleeps =>
    if retry_count < max_retries then
      if fails attempts then
        if max_retries ≤ retry_count + 1 then ⟨attempts + 1, sleeps.reverse, true⟩
        else
          retry_loop fails max_retries fuel (retry_count + 1) (retry_delay * 2)
            (attempts + 1) (retry_delay :: sleeps)
      else ⟨attempts + 1, sleeps.reverse, false⟩
    else ⟨attempts, sleeps.reverse, false⟩

/-- The retry loop of `start_collection` as configured in the source:
`max_retries = 3`, initial `retry_delay = 5`, starting at `retry_count = 0`. -/
def start_collection_retries (fails : Nat → Bool) : RetryResult :=
  retry_loop fails 3 3 0 5 0 []

/-- Model of the summary computation in `_stop_collection`: elapsed wall time
and the reported rate, `post_count / elapsed if elapsed > 0 else 0`.
Timestamps are modelled as rationals. -/
def stop_summary (post_count : Nat) (now start : ℚ) : ℚ × ℚ :=
  let elapsed := now - start
  (elapsed, if 0 < elapsed then (post_count : ℚ) / elapsed else 0)

/-! Concrete inputs used by witnesses and counterexamples. -/

/-- The decoded record of the spec's worked example. -/
def exRecord : List (String × Json) :=
  [("$type", Json.str "app.bsky.feed.post"), ("text", Json.str "hello"),
    ("createdAt", Json.str "2024-01-01T00:00:00Z")]

/-- The matching operation of the spec's worked example. -/
def exOp : Operation := ⟨"create", "app.bsky.feed.post/abc123"⟩

/-- The commit event of the spec's worked example. -/
def exCommit : Commit := ⟨"did:plc:xyz", [exOp], [Json.obj exRecord]⟩

/-- A resolution backend whose every call raises, so the author handle always
falls back to the raw repo identifier. -/
def failResolver : String → Except Unit (List String) := fun _ => .error ()

/-- A second post-typed record, used to exercise bundles with several posts. -/
def exRecord2 : List (String × Json) :=
  [("$type", Json.str "app.bsky.feed.post"), ("text", Json.str "second"),
    ("createdAt", Json.str "2024-01-02T00:00:00Z")]

/-- A post-typed record whose `embed` field is a bare string, so
`_check_for_images` raises `AttributeError` on it. -/
def badRecord : List (String × Json) :=
  [("$type", Json.str "app.bsky.feed.post"), ("text", Json.str "broken"),
    ("embed", Json.str "x")]

/-- A commit with two matching operations over a single-post bundle. -/
def exCommit2 : Commit :=
  ⟨"did:plc:xyz",
    [⟨"create", "app.bsky.feed.post/one"⟩, ⟨"create", "app.bsky.feed.post/two"⟩],
    [Json.obj exRecord, Json.obj exRecord2]⟩

/-- A commit with two matching operations over a bundle holding a good post, a
broken post and a further good post, in that order. -/
def exCommitBad : Commit :=
  ⟨"did:plc:xyz",
    [⟨"create", "app.bsky.feed.post/one"⟩, ⟨"create", "app.bsky.feed.post/two"⟩],
    [Json.obj exRecord, Json.obj badRecord, Json.obj exRecord2]⟩

/-! Helper lemmas shared by the claim theorems. -/

/-- On a record whose embed and reply inspections both succeed,
`_extract_post_data` returns exactly the `mkPost` dictionary. -/
theorem extract_post_data_ok (fields : List (String × Json)) (repo path a : String)
    (h : recordOk fields = true) :
    extract_post_data fields repo path a = .ok (mkPost fields repo path a) := by
  unfold recordOk at h
  cases hc : check_for_images fields with
  | error ec => rw [hc] at h; simp [exOk] at h
  | ok hi =>
    cases hr : get_reply_to fields with
    | error er => rw [hc, hr] at h; simp [exOk] at h
    | ok rt =>
      unfold extract_post_data mkPost
      rw [hc, hr]
      rfl

/-- On a record whose embed or reply inspection raises, `_extract_post_data`
propagates the exception. -/
theorem extract_post_data_err (fields : List (String × Json)) (repo path a : String)
    (h : recordOk fields = false) :
    ∃ e, extract_post_data fields repo path a = .error e := by
  cases hc : check_for_images fields with
  | error ec =>
    refine ⟨ec, ?_⟩
    unfold extract_post_data
    rw [hc]
    rfl
  | ok hi =>
    cases hr : get_reply_to fields with
    | error er =>
      refine ⟨er, ?_⟩
      unfold extract_post_data
      rw [hc, hr]
      rfl
    | ok rt =>
      unfold recordOk at h
      rw [hc, hr] at h
      simp [exOk] at h

/-- The loop of `_process_post` over a bundle whose post-typed records all
extract cleanly saves exactly the post-typed records, in bundle order, and no
exception escapes. -/
theorem processPostGo_ok (a repo path : String) (blocks : List Json)
    (h : ∀ f ∈ postFields blocks, recordOk f = true) (acc : List PostRecord) :
    processPostGo a repo path blocks acc =
      (acc.reverse ++ (postFields blocks).map (fun f => mkPost f repo path a), none) := by
  induction blocks generalizing acc with
  | nil => simp [processPostGo, postFields]
  | cons r rest ih =>
    cases hr : isPostRecord r with
    | none =>
      have hpf : postFields (r :: rest) = postFields rest := by
        simp [postFields, List.filterMap_cons, hr]
      rw [hpf] at h
      simp only [processPostGo, hr]
      rw [ih h acc, hpf]
    | some f =>
      have hpf : postFields (r :: rest) = f :: postFields rest := by
        simp [postFields, List.filterMap_cons, hr]
      rw [hpf] at h
      have hf : recordOk f = true := h f (List.mem_cons_self f _)
      have hrest : ∀ g ∈ postFields rest, recordOk g = true :=
        fun g hg => h g (List.mem_cons_of_mem f hg)
      simp only [processPostGo, hr, extract_post_data_ok f repo path a hf]
      rw [ih hrest, hpf]
      simp [List.append_assoc]

/-- `_process_post` on a clean bundle returns the extraction of every
post-typed record, in bundle order. -/
theorem process_post_eq (a repo path : String) (blocks : List Json)
    (h : ∀ f ∈ postFields blocks, recordOk f = true) :
    process_post a repo path blocks = (postFields blocks).map (fun f => mkPost f repo path a) := by
  unfold process_post
  rw [processPostGo_ok a repo path blocks h []]
  simp

/-- The loop of `_process_post` over a bundle holding a failing post-typed
record saves exactly the post-typed records in front of it, and the exception
escapes the loop into the `except` clause. -/
theorem processPostGo_err (a repo path : String) (front : List Json)
    (bad : List (String × Json)) (rest : List Json) (acc : List PostRecord)
    (hfront : ∀ f ∈ postFields front, recordOk f = true)
    (hbadP : isPostRecord (Json.obj bad) = some bad)
    (hbadE : recordOk bad = false) :
    ∃ e, processPostGo a repo path (front ++ Json.obj bad :: rest) acc =
      (acc.reverse ++ (postFields front).map (fun f => mkPost f repo path a), some e) := by
  induction front generalizing acc with
  | nil =>
    obtain ⟨e, he⟩ := extract_post_data_err bad repo path a hbadE
    refine ⟨e, ?_⟩
    simp only [List.nil_append, processPostGo, hbadP, he]
    simp [postFields]
  | cons r rf ih =>
    cases hr : isPostRecord r with
    | none =>
      have hpf : postFields (r :: rf) = postFields rf := by
        simp [postFields, List.filterMap_cons, hr]
      rw [hpf] at hfront
      obtain ⟨e, he⟩ := ih acc hfront
      refine ⟨e, ?_⟩
      simp only [List.cons_append, processPostGo, hr, List.append_eq]
      rw [he, hpf]
    | some f =>
      have hpf : postFields (r :: rf) = f :: postFields rf := by
        simp [postFields, List.filterMap_cons, hr]
      rw [hpf] at hfront
      have hf : recordOk f = true := hfront f (List.mem_cons_self f _)
      have hrest : ∀ g ∈ postFields rf, recordOk g = true :=
        fun g hg => hfront g (List.mem_cons_of_mem f hg)
      obtain ⟨e, he⟩ := ih (mkPost f repo path a :: acc) hrest
      refine ⟨e, ?_⟩
      simp only [List.cons_append, processPostGo, hr, extract_post_data_ok f repo path a hf,
        List.append_eq]
      rw [he, hpf]
      simp [List.append_assoc]

/-- `process_message` on a clean bundle: every matching operation contributes
the extraction of every post-typed record, in operation order. -/
theorem process_message_eq (resolver : String → Except Unit (List String)) (c : Commit)
    (h : ∀ f ∈ postFields c.blocks, recordOk f = true) :
    process_message resolver c =
      (matchingOps c).flatMap fun op =>
        (postFields c.blocks).map fun f =>
          mkPost f c.repo op.path (resolve_author_handle (resolver c.repo) c.repo) := by
  unfold process_message
  have hfun :
      (fun op : Operation =>
          process_post (resolve_author_handle (resolver c.repo) c.repo) c.repo op.path c.blocks) =
        fun op : Operation =>
          (postFields c.blocks).map fun f =>
            mkPost f c.repo op.path (resolve_author_handle (resolver c.repo) c.repo) :=
    funext fun op =>
      process_post_eq (resolve_author_handle (resolver c.repo) c.repo) c.repo op.path c.blocks h
  rw [hfun]

/-- Membership form of `process_message_eq`: on a clean bundle each matching
operation and each post-typed record yield a saved `PostRecord`. -/
theorem mkPost_mem_process_message (resolver : String → Except Unit (List String)) (c : Commit)
    (op : Operation) (f : List (String × Json))
    (h : ∀ g ∈ postFields c.blocks, recordOk g = true)
    (hop : op ∈ matchingOps c) (hf : f ∈ postFields c.blocks) :
    mkPost f c.repo op.path (resolve_author_handle (resolver c.repo) c.repo) ∈
      process_message resolver c := by
  rw [process_message_eq resolver c h]
  exact List.mem_flatMap.mpr ⟨op, hop, List.mem_map_of_mem _ hf⟩

/-- Length of a `flatMap` whose pieces all have the same length. -/
theorem length_flatMap_const {α β : Type} (l : List α) (g : α → List β) (n : Nat)
    (h : ∀ a ∈ l, (g a).length = n) : (l.flatMap g).length = l.length * n := by
  induction l with
  | nil => simp
  | cons a rest ih =>
    have ha : (g a).length = n := h a (List.mem_cons_self a _)
    have hrest : ∀ b ∈ rest, (g b).length = n :=
      fun b hb => h b (List.mem_cons_of_mem a hb)
    simp only [List.flatMap_cons, List.length_append, List.length_cons, ih hrest, ha,
      Nat.succ_mul]
    omega

/-- Every member of `postFields` really carries the post schema `$type`. -/
theorem mem_postFields_type (f : List (String × Json)) (blocks : List Json)
    (hf : f ∈ postFields blocks) :
    pyEqStr (lookupField f "$type") "app.bsky.feed.post" = true := by
  obtain ⟨j, _, hjf⟩ := List.mem_filterMap.mp hf
  cases j with
  | obj fs =>
    by_cases hty : pyEqStr (lookupField fs "$type") "app.bsky.feed.post" = true
    · have hred : isPostRecord (Json.obj fs) = some fs := by simp [isPostRecord, hty]
      rw [hred] at hjf
      injection hjf with h
      subst h
      exact hty
    · have hred : isPostRecord (Json.obj fs) = none := by simp [isPostRecord, hty]
      rw [hred] at hjf
      cases hjf
  | null => simp [isPostRecord] at hjf
  | bool b => simp [isPostRecord] at hjf
  | num n => simp [isPostRecord] at hjf
  | str s => simp [isPostRecord] at hjf
  | arr es => simp [isPostRecord] at hjf

/-- Once the saved-post count has reached a non-zero limit, the next incoming
message triggers `_stop_collection` without being processed. -/
theorem message_stream_stops (post_limit c m : Nat) (ms : List Nat)
    (h0 : post_limit ≠ 0) (hc : post_limit ≤ c) :
    message_stream_run post_limit (m :: ms) c = (c, true) := by
  unfold message_stream_run
  rw [if_pos ⟨h0, hc⟩]

/-- With limit 5, a stream of one-post messages long enough to include a
message after the fifth save terminates with exactly five saved posts. -/
theorem message_stream_ones (ms : List Nat) (c : Nat) (h1 : ∀ m ∈ ms, m = 1)
    (hc : c ≤ 5) (hl : 6 - c ≤ ms.length) : message_stream_run 5 ms c = (5, true) := by
  induction ms generalizing c with
  | nil =>
    simp only [List.length_nil] at hl
    omega
  | cons m rest ih =>
    have hm : m = 1 := h1 m (List.mem_cons_self m _)
    have hrest : ∀ n ∈ rest, n = 1 := fun n hn => h1 n (List.mem_cons_of_mem m hn)
    simp only [List.length_cons] at hl
    by_cases h5 : 5 ≤ c
    · have hceq : c = 5 := Nat.le_antisymm hc h5
      subst hceq
      unfold message_stream_run
      rw [if_pos ⟨by omega, by omega⟩]
    · unfold message_stream_run
      rw [if_neg (by omega : ¬((5 : Nat) ≠ 0 ∧ 5 ≤ c))]
      rw [hm]
      exact ih (c + 1) hrest (by omega) (by omega)

/-! The claim theorems. -/

/-- C1: for every commit event containing the operation
`action="create"`, `path="app.bsky.feed.post/abc123"`, with repo
`"did:plc:xyz"`, whose block bundle decodes to the single record of the
worked example, the extraction saves a PostRecord with
`uri = "at://did:plc:xyz/app.bsky.feed.post/abc123"`, `text = "hello"`,
`created_at = "2024-01-01T00:00:00Z"`, `has_images = false` and `reply_to`
absent, whatever the resolution backend answers. -/
theorem claim1_example_extraction (resolver : String → Except Unit (List String))
    (ops : List Operation) (hop : exOp ∈ ops) :
    ∃ p ∈ process_message resolver ⟨"did:plc:xyz", ops, [Json.obj exRecord]⟩,
      p.uri = "at://did:plc:xyz/app.bsky.feed.post/abc123" ∧
      p.text = Json.str "hello" ∧
      p.created_at = Json.str "2024-01-01T00:00:00Z" ∧
      p.has_images = false ∧
      p.reply_to = none := by
  have hok : ∀ f ∈ postFields ([Json.obj exRecord] : List Json), recordOk f = true := by decide
  have hmem :=
    mkPost_mem_process_message resolver ⟨"did:plc:xyz", ops, [Json.obj exRecord]⟩ exOp exRecord
      hok (List.mem_filter.mpr ⟨hop, by decide⟩) (List.Mem.head _)
  exact ⟨_, hmem, rfl, rfl, rfl, rfl, rfl⟩

/-- C1 witness: the claim instantiated at the one-operation commit of the
worked example, with a resolution backend that always fails. -/
theorem claim1_example_extraction_witness :
    exOp ∈ [exOp] ∧
    ∃ p ∈ process_message failResolver ⟨"did:plc:xyz", [exOp], [Json.obj exRecord]⟩,
      p.uri = "at://did:plc:xyz/app.bsky.feed.post/abc123" ∧
      p.text = Json.str "hello" ∧
      p.created_at = Json.str "2024-01-01T00:00:00Z" ∧
      p.has_images = false ∧
      p.reply_to = none :=
  ⟨List.Mem.head _, claim1_example_extraction failResolver [exOp] (List.Mem.head _)⟩

/-- C2 counterexample: on a record whose `embed` field is the bare string
`"x"` — an embed shape that is neither the images embed nor an external embed
— `_check_for_images` does not yield `has_images = false`: it raises
`AttributeError` (Python `str` has no `.get`), so the record is dropped by the
operation-level handler instead of being saved with `has_images = false`. -/
theorem claim2_embed_shape_counterexample :
    check_for_images badRecord = .error .attributeError ∧
    check_for_images badRecord ≠ .ok false ∧
    check_for_images badRecord ≠ .ok true :=
  ⟨rfl, fun h => Except.noConfusion h, fun h => Except.noConfusion h⟩

/-- C2 amended: `has_images` is true exactly when the embed is a mapping whose
`$type` is the images embed, or a mapping whose `$type` is the external embed
and which carries a `thumb` key; an absent embed, or a mapping embed of any
other shape, yields false; but a non-mapping embed value makes the record's
extraction raise `AttributeError` (caught at the operation boundary) instead
of yielding a value. -/
theorem claim2_has_images_amended :
    (∀ fields ef, lookupField fields "embed" = some (.obj ef) →
        lookupField ef "$type" = some (.str "app.bsky.embed.images") →
        check_for_images fields = .ok true) ∧
    (∀ fields ef, lookupField fields "embed" = some (.obj ef) →
        lookupField ef "$type" = some (.str "app.bsky.embed.external") →
        hasKey ef "thumb" = true →
        check_for_images fields = .ok true) ∧
    (∀ fields ef, lookupField fields "embed" = some (.obj ef) →
        lookupField ef "$type" = some (.str "app.bsky.embed.external") →
        hasKey ef "thumb" = false →
        check_for_images fields = .ok false) ∧
    (∀ fields, lookupField fields "embed" = none → check_for_images fields = .ok false) ∧
    (∀ fields ef, lookupField fields "embed" = some (.obj ef) →
        pyEqStr (lookupField ef "$type") "app.bsky.embed.images" = false →
        pyEqStr (lookupField ef "$type") "app.bsky.embed.external" = false →
        check_for_images fields = .ok false) ∧
    (∀ fields j, lookupField fields "embed" = some j → (∀ ef, j ≠ .obj ef) →
        check_for_images fields = .error .attributeError) := by
  refine ⟨?_, ?_, ?_, ?_, ?_, ?_⟩
  · intro fields ef h1 h2
    unfold check_for_images
    rw [h1, Option.getD_some]
    show Except.ok (pyEqStr (lookupField ef "$type") "app.bsky.embed.images" ||
      (pyEqStr (lookupField ef "$type") "app.bsky.embed.external" && hasKey ef "thumb")) =
        Except.ok true
    rw [h2]
    simp [pyEqStr]
  · intro fields ef h1 h2 h3
    unfold check_for_images
    rw [h1, Option.getD_some]
    show Except.ok (pyEqStr (lookupField ef "$type") "app.bsky.embed.images" ||
      (pyEqStr (lookupField ef "$type") "app.bsky.embed.external" && hasKey ef "thumb")) =
        Except.ok true
    rw [h2, h3]
    simp [pyEqStr]
  · intro fields ef h1 h2 h3
    unfold check_for_images
    rw [h1, Option.getD_some]
    show Except.ok (pyEqStr (lookupField ef "$type") "app.bsky.embed.images" ||
      (pyEqStr (lookupField ef "$type") "app.bsky.embed.external" && hasKey ef "thumb")) =
        Except.ok false
    rw [h2, h3]
    simp [pyEqStr]
  · intro fields h1
    unfold check_for_images
    rw [h1]
    rfl
  · intro fields ef h1 h2 h3
    unfold check_for_images
    rw [h1, Option.getD_some]
    show Except.ok (pyEqStr (lookupField ef "$type") "app.bsky.embed.images" ||
      (pyEqStr (lookupField ef "$type") "app.bsky.embed.external" && hasKey ef "thumb")) =
        Except.ok false
    rw [h2, h3]
    simp
  · intro fields j h1 h2
    unfold check_for_images
    rw [h1, Option.getD_some]
    cases j with
    | obj ef => exact absurd rfl (h2 ef)
    | null => rfl
    | bool b => rfl
    | num n => rfl
    | str s => rfl
    | arr es => rfl

/-- C2 witness: the amended characterisation applied to a concrete record
with an images embed. -/
theorem claim2_has_images_amended_witness :
    check_for_images
        [("embed", Json.obj [("$type", Json.str "app.bsky.embed.images")])] = .ok true :=
  claim2_has_images_amended.1
    [("embed", Json.obj [("$type", Json.str "app.bsky.embed.images")])]
    [("$type", Json.str "app.bsky.embed.images")] rfl rfl

/-- C3 counterexample: with a resolved identity whose first alias carries no
`at://` scheme while its second alias does, `_resolve_author_handle` falls
back to the raw identifier — it never looks past the first alias — whereas
the claim demands the handle of the first `at://`-formatted alias. -/
theorem claim3_first_alias_counterexample :
    resolve_author_handle (.ok ["example.com", "at://alice.bsky.social"]) "did:plc:xyz" =
      "did:plc:xyz" ∧
    "did:plc:xyz" ≠ "alice.bsky.social" :=
  ⟨rfl, by decide⟩

/-- C3 amended: handle resolution inspects only the first alias of the
resolved identity. If splitting that alias on `at://` yields at least two
segments (the alias contains `at://` somewhere), the segment after the first
occurrence is returned; otherwise — a first alias without `at://`, an empty
alias list, or a resolution failure — the raw actor identifier is returned,
the `IndexError` of the too-short split being caught at the same boundary, so
nothing raises past it. -/
theorem claim3_resolve_amended :
    (∀ repo, resolve_author_handle (.error ()) repo = repo) ∧
    (∀ repo, resolve_author_handle (.ok []) repo = repo) ∧
    (∀ repo a0 rest s0 s1 ss, pySplit a0 "at://" = s0 :: s1 :: ss →
        resolve_author_handle (.ok (a0 :: rest)) repo = s1) ∧
    (∀ repo a0 rest, (pySplit a0 "at://").length ≤ 1 →
        resolve_author_handle (.ok (a0 :: rest)) repo = repo) := by
  refine ⟨fun repo => rfl, fun repo => rfl, ?_, ?_⟩
  · intro repo a0 rest s0 s1 ss h
    show (match pyGetIdx (pySplit a0 "at://") 1 with
      | Except.ok h => h
      | Except.error _ => repo) = s1
    rw [h]
    rfl
  · intro repo a0 rest h
    cases hs : pySplit a0 "at://" with
    | nil =>
      show (match pyGetIdx (pySplit a0 "at://") 1 with
        | Except.ok h => h
        | Except.error _ => repo) = repo
      rw [hs]
      rfl
    | cons x xs =>
      cases xs with
      | nil =>
        show (match pyGetIdx (pySplit a0 "at://") 1 with
          | Except.ok h => h
          | Except.error _ => repo) = repo
        rw [hs]
        rfl
      | cons y ys =>
        rw [hs] at h
        simp at h

/-- C3 witness: the amended behaviour on a first alias that does carry the
`at://` scheme. -/
theorem claim3_resolve_amended_witness :
    pySplit "at://alice.test" "at://" = ["", "alice.test"] ∧
    resolve_author_handle (.ok ["at://alice.test"]) "did:plc:abc" = "alice.test" :=
  ⟨by decide,
    claim3_resolve_amended.2.2.1 "did:plc:abc" "at://alice.test" [] "" "alice.test" []
      (by decide)⟩

/-- C4 counterexample: when every connection attempt fails, the observed
backoff sleeps are `5, 10` — never `5, 10, 20` — and the loop makes exactly 3
connection attempts, not 3 followed by a fourth. -/
theorem claim4_backoff_counterexample :
    (start_collection_retries (fun _ => true)).sleeps ≠ [5, 10, 20] ∧
    (start_collection_retries (fun _ => true)).attempts = 3 ∧ (3 : Nat) ≠ 4 := by
  decide

/-- C4 amended: with `max_retries = 3`, when every connection attempt fails
the session controller makes exactly 3 attempts, sleeping 5 then 10
time-units between them (the base delay doubling after each failed attempt),
and the third consecutive failure exhausts the retries and takes the fatal
branch that reports the error and calls `_stop_collection`, so the summary is
still reported. -/
theorem claim4_retry_amended :
    start_collection_retries (fun _ => true) = ⟨3, [5, 10], true⟩ := by
  decide

/-- C5 counterexample: with `post_limit = 5`, a stream whose messages each
save 3 posts terminates with `post_count = 6`, not 5 — the count check runs
only between messages, and a single message can push the count past the
limit. -/
theorem claim5_post_limit_counterexample :
    message_stream_run 5 [3, 3, 3] 0 = (6, true) ∧ (6 : Nat) ≠ 5 := by
  decide

/-- C5 amended: with `post_limit = 5`, once `post_count` has reached at least
5 the next incoming message triggers the transition out of streaming without
being processed; when every message saves exactly one post (and a further
message arrives), `post_count` equals exactly 5 at termination. A message
that saves several posts can instead leave `post_count` above 5. -/
theorem claim5_post_limit_amended :
    (∀ (ms : List Nat) (c m : Nat), 5 ≤ c →
        message_stream_run 5 (m :: ms) c = (c, true)) ∧
    (∀ ms : List Nat, (∀ m ∈ ms, m = 1) → 6 ≤ ms.length →
        message_stream_run 5 ms 0 = (5, true)) := by
  constructor
  · intro ms c m hc
    exact message_stream_stops 5 c m ms (by omega) hc
  · intro ms h1 hl
    exact message_stream_ones ms 0 h1 (by omega) (by omega)

/-- C5 witness: the amended behaviour on a six-message stream of single-post
messages. -/
theorem claim5_post_limit_amended_witness :
    6 ≤ ([1, 1, 1, 1, 1, 1] : List Nat).length ∧
    message_stream_run 5 [1, 1, 1, 1, 1, 1] 0 = (5, true) :=
  ⟨by decide, claim5_post_limit_amended.2 [1, 1, 1, 1, 1, 1] (by decide) (by decide)⟩

/-- C6: for every commit event with at least one matching create-post
operation whose post-typed records all extract cleanly, extraction is
bundle-wide: each matching operation emits exactly the decoded records whose
`$type` is `"app.bsky.feed.post"`, in bundle order, regardless of which
records the operations' paths reference; and every emitted record stems from
a post-typed record of the bundle, so records of any other type are never
emitted. -/
theorem claim6_bundle_wide (resolver : String → Except Unit (List String)) (c : Commit)
    (_hne : matchingOps c ≠ [])
    (hok : ∀ f ∈ postFields c.blocks, recordOk f = true) :
    process_message resolver c =
      ((matchingOps c).flatMap fun op =>
        (postFields c.blocks).map fun f =>
          mkPost f c.repo op.path (resolve_author_handle (resolver c.repo) c.repo)) ∧
    ∀ p ∈ process_message resolver c, ∃ f ∈ postFields c.blocks,
      pyEqStr (lookupField f "$type") "app.bsky.feed.post" = true ∧
      ∃ op ∈ matchingOps c,
        p = mkPost f c.repo op.path (resolve_author_handle (resolver c.repo) c.repo) := by
  refine ⟨process_message_eq resolver c hok, ?_⟩
  intro p hp
  rw [process_message_eq resolver c hok] at hp
  obtain ⟨op, hop, hp2⟩ := List.mem_flatMap.mp hp
  obtain ⟨f, hf, rfl⟩ := List.mem_map.mp hp2
  exact ⟨f, hf, mem_postFields_type f c.blocks hf, op, hop, rfl⟩

/-- C6 witness: on a two-operation commit over a two-post bundle, the full
output evaluates to the four bundle-wide extractions. -/
theorem claim6_bundle_wide_witness :
    process_message failResolver exCommit2 =
      [⟨Json.str "hello", Json.str "2024-01-01T00:00:00Z", "did:plc:xyz",
          "at://did:plc:xyz/app.bsky.feed.post/one", false, none⟩,
        ⟨Json.str "second", Json.str "2024-01-02T00:00:00Z", "did:plc:xyz",
          "at://did:plc:xyz/app.bsky.feed.post/one", false, none⟩,
        ⟨Json.str "hello", Json.str "2024-01-01T00:00:00Z", "did:plc:xyz",
          "at://did:plc:xyz/app.bsky.feed.post/two", false, none⟩,
        ⟨Json.str "second", Json.str "2024-01-02T00:00:00Z", "did:plc:xyz",
          "at://did:plc:xyz/app.bsky.feed.post/two", false, none⟩] := by
  rw [(claim6_bundle_wide failResolver exCommit2 (by decide) (by decide)).1]
  rfl

/-- C7: every record handed to the sink serialises to a JSON mapping with
exactly the six PostRecord fields, in insertion order, each carrying the
corresponding field value — so a written line parsed back as JSON reproduces
exactly those six fields, no more and no fewer. -/
theorem claim7_sink_round_trip (p : PostRecord) :
    jsonKeys (post_to_json p) =
      ["text", "created_at", "author", "uri", "has_images", "reply_to"] ∧
    jLookup (post_to_json p) "text" = some p.text ∧
    jLookup (post_to_json p) "created_at" = some p.created_at ∧
    jLookup (post_to_json p) "author" = some (.str p.author) ∧
    jLookup (post_to_json p) "uri" = some (.str p.uri) ∧
    jLookup (post_to_json p) "has_images" = some (.bool p.has_images) ∧
    jLookup (post_to_json p) "reply_to" = some (p.reply_to.getD .null) :=
  ⟨rfl, rfl, rfl, rfl, rfl, rfl, rfl⟩

/-- C8: the summary reporter computes the rate as `post_count / elapsed` only
when `elapsed` is positive, and reports 0 whenever `elapsed ≤ 0`, so the
report never divides by zero. -/
theorem claim8_rate_guard (post_count : Nat) (now start : ℚ) :
    (now - start ≤ 0 → (stop_summary post_count now start).2 = 0) ∧
    (0 < now - start →
      (stop_summary post_count now start).2 = (post_count : ℚ) / (now - start)) := by
  constructor
  · intro h
    simp only [stop_summary]
    rw [if_neg (not_lt.mpr h)]
  · intro h
    simp only [stop_summary]
    rw [if_pos h]

/-- C8 witness: the guard at a non-positive elapsed time and the division at a
positive one. -/
theorem claim8_rate_guard_witness :
    ((0 : ℚ) - 1 ≤ 0 ∧ (stop_summary 7 0 1).2 = 0) ∧
    (0 < (10 : ℚ) - 0 ∧ (stop_summary 7 10 0).2 = (7 : ℚ) / ((10 : ℚ) - 0)) :=
  ⟨⟨by norm_num, (claim8_rate_guard 7 0 1).1 (by norm_num)⟩,
    ⟨by norm_num, (claim8_rate_guard 7 10 0).2 (by norm_num)⟩⟩

/-- C9: on a commit with k matching create-post operations over a cleanly
extracting bundle, every post-typed record is saved once per matching
operation — k times in total, `k * n` saves for n post-typed records — each
time with the uri synthesized from that operation's path, and two saves of
the same record differ in nothing but the uri. -/
theorem claim9_multi_op_duplication (resolver : String → Except Unit (List String))
    (c : Commit) (hok : ∀ f ∈ postFields c.blocks, recordOk f = true) :
    (∀ op ∈ matchingOps c, ∀ f ∈ postFields c.blocks,
        mkPost f c.repo op.path (resolve_author_handle (resolver c.repo) c.repo) ∈
          process_message resolver c) ∧
    (process_message resolver c).length =
      (matchingOps c).length * (postFields c.blocks).length ∧
    (∀ op ∈ matchingOps c, ∀ f ∈ postFields c.blocks,
        (mkPost f c.repo op.path (resolve_author_handle (resolver c.repo) c.repo)).uri =
          "at://" ++ c.repo ++ "/" ++ op.path) ∧
    (∀ (op1 op2 : Operation) (f : List (String × Json)) (a : String),
        (mkPost f c.repo op1.path a).text = (mkPost f c.repo op2.path a).text ∧
        (mkPost f c.repo op1.path a).created_at = (mkPost f c.repo op2.path a).created_at ∧
        (mkPost f c.repo op1.path a).author = (mkPost f c.repo op2.path a).author ∧
        (mkPost f c.repo op1.path a).has_images = (mkPost f c.repo op2.path a).has_images ∧
        (mkPost f c.repo op1.path a).reply_to = (mkPost f c.repo op2.path a).reply_to) := by
  refine ⟨?_, ?_, ?_, ?_⟩
  · intro op hop f hf
    exact mkPost_mem_process_message resolver c op f hok hop hf
  · rw [process_message_eq resolver c hok]
    exact length_flatMap_const (matchingOps c) _ (postFields c.blocks).length
      (fun op _ => List.length_map _ _)
  · intro op _ f _
    rfl
  · intro op1 op2 f a
    exact ⟨rfl, rfl, rfl, rfl, rfl⟩

/-- C9 witness: two matching operations and two post-typed records yield four
saved records. -/
theorem claim9_multi_op_duplication_witness :
    (process_message failResolver exCommit2).length = 2 * 2 := by
  rw [(claim9_multi_op_duplication failResolver exCommit2 (by decide)).2.1]
  decide

/-- C10: an exception raised while extracting a record of the bundle is
caught at the operation boundary: the operation keeps the records already
saved before the failing one and skips the failing record and all remaining
records, the exception escapes `_process_post`'s loop but not its handler,
and the rest of the session — further matching operations of the same
message included — proceeds. -/
theorem claim10_error_truncation (a repo path : String) (front : List Json)
    (bad : List (String × Json)) (rest : List Json)
    (hfront : ∀ f ∈ postFields front, recordOk f = true)
    (hbadP : isPostRecord (Json.obj bad) = some bad)
    (hbadE : recordOk bad = false) :
    (∃ e, processPostGo a repo path (front ++ Json.obj bad :: rest) [] =
        ((postFields front).map (fun f => mkPost f repo path a), some e)) ∧
    process_post a repo path (front ++ Json.obj bad :: rest) =
      (postFields front).map (fun f => mkPost f repo path a) ∧
    (∀ (resolver : String → Except Unit (List String)) (op1 op2 : Operation),
        matchingOp op1 = true → matchingOp op2 = true →
        process_message resolver ⟨repo, [op1, op2], front ++ Json.obj bad :: rest⟩ =
          process_post (resolve_author_handle (resolver repo) repo) repo op1.path
              (front ++ Json.obj bad :: rest) ++
            process_post (resolve_author_handle (resolver repo) repo) repo op2.path
              (front ++ Json.obj bad :: rest)) := by
  obtain ⟨e, he⟩ := processPostGo_err a repo path front bad rest [] hfront hbadP hbadE
  rw [List.reverse_nil, List.nil_append] at he
  refine ⟨⟨e, he⟩, ?_, ?_⟩
  · unfold process_post
    rw [he]
  · intro resolver op1 op2 h1 h2
    unfold process_message matchingOps
    simp [List.filter_cons, h1, h2]

/-- C10 witness: one good record, a broken record, a further good record: the
operation saves only the good record in front of the broken one. -/
theorem claim10_error_truncation_witness :
    process_post "did:plc:xyz" "did:plc:xyz" "app.bsky.feed.post/one"
        ([Json.obj exRecord] ++ Json.obj badRecord :: [Json.obj exRecord2]) =
      [⟨Json.str "hello", Json.str "2024-01-01T00:00:00Z", "did:plc:xyz",
          "at://did:plc:xyz/app.bsky.feed.post/one", false, none⟩] := by
  rw [(claim10_error_truncation "did:plc:xyz" "did:plc:xyz" "app.bsky.feed.post/one"
      [Json.obj exRecord] badRecord [Json.obj exRecord2] (by decide) rfl rfl).2.1]
  rfl

end BskyScraper
